import Mathlib

/-!
Verification of the SEO website-audit core: shallow embedding of the scoring
engine, report formatters, indexability classifier, job store, submission
route, and websocket subscriber registry, with theorems about their
specified behavior.

Number handling: TypeScript numbers used in score arithmetic are modelled as
`ℚ` (the concrete values are small and exactly representable), `Math.round`
as `jsRound` (floor of `q + 1/2`, JavaScript rounds halves toward positive
infinity), and integer-valued fields as `ℕ`/`ℤ`.  A JS value `v` of type
`number | undefined` is modelled as `Option ℕ`; the truthiness test `!v` is
true for `undefined` and for `0`, and is translated accordingly.
-/

namespace SEOAudit

/-- JavaScript `Math.round` on a rational: floor of `q + 1/2`. -/
def jsRound (q : ℚ) : ℤ := ⌊q + 1 / 2⌋

/-! ## Rule and report data model (src/types/rules.ts, src/types/seo.ts) -/

/-- `RuleLevel` enum: ERROR = 3, WARNING = 2, NOTICE = 1 (integer weights). -/
abbrev RuleLevel := ℕ

def RuleLevel.ERROR : RuleLevel := 3
def RuleLevel.WARNING : RuleLevel := 2
def RuleLevel.NOTICE : RuleLevel := 1

/-- `Rule = { name: string; level: RuleLevel }`. -/
structure Rule where
  name : String
  level : RuleLevel
deriving Repr, DecidableEq

/-- One rule outcome in a page or site report:
`SEOResult = { success, message?, rule }`. -/
structure SEOResult where
  rule : String
  success : Bool
  message : Option String
deriving Repr, DecidableEq

/-- `SEOReport = { results: SEOResult[]; score: number }`. -/
structure SEOReport where
  results : List SEOResult
  score : ℚ
deriving Repr, DecidableEq

/-- Result of one rule predicate: `{ success: boolean; message?: string }`. -/
structure CheckResult where
  success : Bool
  message : Option String
deriving Repr, DecidableEq

/-- Opaque handle for a rendered page (Playwright `Page`); the pipeline never
inspects it, it is only passed to rule predicates. -/
structure Page where
  id : ℕ
deriving Repr, DecidableEq

/-- A page-level rule.  The predicate can throw (e.g. a timeout probing the
page), modelled by `Except String`. -/
structure SEORule extends Rule where
  check : Page → Except String CheckResult

/-- `SiteRuleContext = { baseUrl, sitemapUrl, crawledUrls }`. -/
structure SiteRuleContext where
  baseUrl : String
  sitemapUrl : Option String
  crawledUrls : List String
deriving Repr, DecidableEq

/-- A site-level rule; the predicate can throw. -/
structure SiteRule extends Rule where
  check : SiteRuleContext → Except String CheckResult

/-! ## Scraped data (src/types/scrape.ts, src/lib/urlClassifier.ts) -/

/-- `UrlType` classification of a visited resource. -/
inductive UrlType where
  | HTML_PAGE
  | PDF
  | DOC
  | OTHER_DOCUMENT
  | UNKNOWN
deriving Repr, DecidableEq

/-- `isHtmlPage` (src/lib/urlClassifier.ts). -/
def isHtmlPage : UrlType → Bool
  | UrlType.HTML_PAGE => true
  | _ => false

/-- `ScrapedData`: one visited resource's record. -/
structure ScrapedData where
  url : String
  linksFound : List String
  seoReport : SEOReport
  statusCode : Option ℕ
  redirectChain : Option (List String)
  urlType : UrlType
  isIndexable : Bool
  hasNoIndex : Bool
deriving Repr, DecidableEq

/-! ## Rule evaluators (src/lib/evaluate.ts)

`evaluateSEORules` and `evaluateSiteRules` loop over the rules, `await`ing
each `rule.check`.  There is no try/catch around the call, so a predicate
that throws aborts the whole evaluator; this is modelled by propagating the
`Except.error`. -/

/-- Loop of `evaluateSEORules`: accumulates `score`, `maxScore`, `results`
in order; a throwing `check` aborts the loop. -/
def evalSEOLoop (page : Page) :
    List SEORule → ℕ → ℕ → List SEOResult →
    Except String (ℕ × ℕ × List SEOResult)
  | [], score, maxScore, results => Except.ok (score, maxScore, results)
  | rule :: rest, score, maxScore, results =>
    match rule.check page with
    | Except.error e => Except.error e
    | Except.ok result =>
      evalSEOLoop page rest
        (if result.success then score + rule.level else score)
        (maxScore + rule.level)
        (results ++ [⟨rule.name, result.success, result.message⟩])

/-- `evaluateSEORules(page, rules)`: weighted pass rate over the rules,
score `(score / maxScore) * 100` when `maxScore > 0`, else `0`. -/
def evaluateSEORules (page : Page) (rules : List SEORule) :
    Except String SEOReport :=
  match evalSEOLoop page rules 0 0 [] with
  | Except.error e => Except.error e
  | Except.ok (score, maxScore, results) =>
    Except.ok
      { results := results
        score := if maxScore > 0 then ((score : ℚ) / maxScore) * 100 else 0 }

/-- Loop of `evaluateSiteRules`, same shape as `evalSEOLoop`. -/
def evalSiteLoop (context : SiteRuleContext) :
    List SiteRule → ℕ → ℕ → List SEOResult →
    Except String (ℕ × ℕ × List SEOResult)
  | [], score, maxScore, results => Except.ok (score, maxScore, results)
  | rule :: rest, score, maxScore, results =>
    match rule.check context with
    | Except.error e => Except.error e
    | Except.ok result =>
      evalSiteLoop context rest
        (if result.success then score + rule.level else score)
        (maxScore + rule.level)
        (results ++ [⟨rule.name, result.success, result.message⟩])

/-- `evaluateSiteRules(context, rules)`. -/
def evaluateSiteRules (context : SiteRuleContext) (rules : List SiteRule) :
    Except String SEOReport :=
  match evalSiteLoop context rules 0 0 [] with
  | Except.error e => Except.error e
  | Except.ok (score, maxScore, results) =>
    Except.ok
      { results := results
        score := if maxScore > 0 then ((score : ℚ) / maxScore) * 100 else 0 }

/-! ## Proportional score (src/lib/evaluate.ts, `calculateProportionalScore`) -/

/-- `results.find((r) => r.rule === name)`: first outcome recorded for a
rule name. -/
def findResult (results : List SEOResult) (name : String) : Option SEOResult :=
  results.find? (fun r => r.rule == name)

/-- Number of pages whose recorded outcome for `ruleName` is a success
(`if (result?.success) passedCount++`): a missing outcome counts as not
passed here. -/
def passedCount (pageData : List ScrapedData) (ruleName : String) : ℕ :=
  (pageData.filter fun page =>
    match findResult page.seoReport.results ruleName with
    | some r => r.success
    | none => false).length

/-- `calculateProportionalScore(pageData, pageRules, siteReport?)`.

Page rules: each contributes `level * pageData.length` possible points and
`level * passedCount` earned points.  Site-report results: each contributes
a hardcoded weight of `2` to possible points (`const weight = 2` in the
source) and, on success, to earned points.  Result is
`Math.round((earned / possible) * 100)` when `possible > 0`, else `0`;
an empty `pageData` short-circuits to `0`. -/
def calculateProportionalScore (pageData : List ScrapedData)
    (pageRules : List Rule) (siteReport : Option SEOReport) : ℤ :=
  if pageData.length = 0 then 0
  else
    let pageAcc : ℕ × ℕ :=
      pageRules.foldl
        (fun acc rule =>
          (acc.1 + rule.level * pageData.length,
           acc.2 + rule.level * passedCount pageData rule.name))
        (0, 0)
    let totals : ℕ × ℕ :=
      match siteReport with
      | none => pageAcc
      | some sr =>
        sr.results.foldl
          (fun acc result =>
            (acc.1 + 2, if result.success then acc.2 + 2 else acc.2))
          pageAcc
    if 0 < totals.1 then jsRound (((totals.2 : ℚ) / totals.1) * 100) else 0

/-! ## Arithmetic bridge lemmas -/

/-- `Math.round((a / b) * 100)` for naturals `a`, `b` with `b > 0` equals the
natural-division form `(200 a + b) / (2 b)`. -/
theorem jsRound_frac (a b : ℕ) (hb : 0 < b) :
    jsRound ((a : ℚ) / (b : ℚ) * 100) = (((200 * a + b) / (2 * b) : ℕ) : ℤ) := by
  have hb0 : (b : ℚ) ≠ 0 := Nat.cast_ne_zero.mpr hb.ne'
  have h : (a : ℚ) / (b : ℚ) * 100 + 1 / 2
      = ((200 * a + b : ℕ) : ℚ) / ((2 * b : ℕ) : ℚ) := by
    push_cast
    field_simp
    ring
  rw [jsRound, h, Rat.floor_natCast_div_natCast]
  push_cast
  rfl

/-! ## Summation form of the proportional score -/

/-- Possible points contributed by the page rules:
`Σ rule.level * pageData.length`. -/
def pagePossible (pageRules : List Rule) (pageData : List ScrapedData) : ℕ :=
  (pageRules.map (fun r => r.level * pageData.length)).sum

/-- Earned points contributed by the page rules:
`Σ rule.level * passedCount`. -/
def pageEarned (pageRules : List Rule) (pageData : List ScrapedData) : ℕ :=
  (pageRules.map (fun r => r.level * passedCount pageData r.name)).sum

/-- Number of site-rule outcomes in an optional site report. -/
def siteResultCount : Option SEOReport → ℕ
  | none => 0
  | some sr => sr.results.length

/-- Number of passing site-rule outcomes in an optional site report. -/
def sitePassedCount : Option SEOReport → ℕ
  | none => 0
  | some sr => (sr.results.filter SEOResult.success).length

theorem pageAcc_foldl (pageRules : List Rule) (pageData : List ScrapedData) :
    ∀ a b : ℕ,
      pageRules.foldl
        (fun acc rule =>
          (acc.1 + rule.level * pageData.length,
           acc.2 + rule.level * passedCount pageData rule.name))
        (a, b)
      = (a + pagePossible pageRules pageData, b + pageEarned pageRules pageData) := by
  induction pageRules with
  | nil => intro a b; simp [pagePossible, pageEarned]
  | cons r rest ih =>
    intro a b
    rw [List.foldl_cons, ih]
    simp only [pagePossible, pageEarned, List.map_cons, List.sum_cons,
      Prod.mk.injEq]
    constructor <;> ring

theorem siteAcc_foldl (results : List SEOResult) :
    ∀ a b : ℕ,
      results.foldl
        (fun acc result =>
          (acc.1 + 2, if result.success then acc.2 + 2 else acc.2))
        (a, b)
      = (a + 2 * results.length, b + 2 * (results.filter SEOResult.success).length) := by
  induction results with
  | nil => intro a b; simp
  | cons r rest ih =>
    intro a b
    rw [List.foldl_cons]
    by_cases h : r.success
    · rw [if_pos h, ih, List.filter_cons_of_pos h]
      simp only [List.length_cons, Prod.mk.injEq]
      constructor <;> omega
    · rw [if_neg h, ih, List.filter_cons_of_neg (by simpa using h)]
      simp only [List.length_cons, Prod.mk.injEq]
      exact ⟨by omega, trivial⟩

/-- Closed form of `calculateProportionalScore` for a non-empty page set:
page rules contribute `level * totalPages` possible and `level * passedCount`
earned points; every site-rule outcome contributes a fixed `2` possible points
and, on success, `2` earned points. -/
theorem calculateProportionalScore_eq (pageData : List ScrapedData)
    (pageRules : List Rule) (siteReport : Option SEOReport)
    (h : pageData ≠ []) :
    calculateProportionalScore pageData pageRules siteReport =
      (if 0 < pagePossible pageRules pageData + 2 * siteResultCount siteReport
       then jsRound
         (((pageEarned pageRules pageData + 2 * sitePassedCount siteReport : ℕ) : ℚ)
           / ((pagePossible pageRules pageData + 2 * siteResultCount siteReport : ℕ) : ℚ)
           * 100)
       else 0) := by
  have hlen : pageData.length ≠ 0 := by
    simpa using (List.length_pos.mpr h).ne'
  unfold calculateProportionalScore
  rw [if_neg hlen]
  cases siteReport with
  | none =>
    simp only [pageAcc_foldl, Nat.zero_add, siteResultCount, sitePassedCount]
    norm_num
  | some sr =>
    simp only [pageAcc_foldl, siteAcc_foldl, Nat.zero_add, siteResultCount,
      sitePassedCount]

/-- Evaluation helper: discharges a concrete `calculateProportionalScore`
computation through natural-number arithmetic only. -/
theorem calculateProportionalScore_eval (pageData : List ScrapedData)
    (pageRules : List Rule) (siteReport : Option SEOReport) (P E : ℕ) (z : ℤ)
    (h : pageData ≠ [])
    (hP : pagePossible pageRules pageData + 2 * siteResultCount siteReport = P)
    (hE : pageEarned pageRules pageData + 2 * sitePassedCount siteReport = E)
    (hPpos : 0 < P)
    (hz : (((200 * E + P) / (2 * P) : ℕ) : ℤ) = z) :
    calculateProportionalScore pageData pageRules siteReport = z := by
  rw [calculateProportionalScore_eq pageData pageRules siteReport h, hP, hE,
    if_pos hPpos, jsRound_frac E P hPpos, hz]

/-! ## Report formatting (src/lib/formatters.ts) -/

/-- `AuditStatus` / audit metadata carried through the formatters untouched
(`end` is renamed `endTime`, a Lean keyword). -/
structure AuditMeta where
  runtime : String
  start : String
  endTime : String
  status : String
  total_urls : ℕ
  total_pages : ℕ
  indexed_pages : ℕ
deriving Repr, DecidableEq

/-- `ErrorDetail = { url, message }`. -/
structure ErrorDetail where
  url : String
  message : String
deriving Repr, DecidableEq

/-- `RuleResultByPage = { rule, type, calc_weight, errors }`. -/
structure RuleResultByPage where
  rule : String
  type : String
  calc_weight : ℕ
  errors : List ErrorDetail
deriving Repr, DecidableEq

/-- `PageResult = { url, score, rules }`. -/
structure PageResult where
  url : String
  score : ℤ
  rules : List RuleResultByPage
deriving Repr, DecidableEq

/-- `AuditResultByPage = { site, meta, score, results }`. -/
structure AuditResultByPage where
  site : String
  meta : AuditMeta
  score : ℤ
  results : List PageResult
deriving Repr, DecidableEq

/-- `getRuleLevelName` (src/types/audit.ts). -/
def getRuleLevelName (level : ℕ) : String :=
  if level = 3 then "ERROR"
  else if level = 2 then "WARNING"
  else if level = 1 then "NOTICE"
  else "UNKNOWN"

/-- Loop body of `formatByPage`'s per-page `pageRules.map`: accumulates
`pageScore`, `maxPageScore` and the per-rule results.  A rule whose recorded
outcome exists and failed contributes an error entry; otherwise (passed or
*no outcome recorded*) the rule's full weight is added to `pageScore`.  Every
rule's weight is added to `maxPageScore`. -/
def pageRuleLoop (page : ScrapedData) :
    List Rule → ℕ → ℕ → List RuleResultByPage →
    ℕ × ℕ × List RuleResultByPage
  | [], pageScore, maxPageScore, ruleResults =>
    (pageScore, maxPageScore, ruleResults)
  | rule :: rest, pageScore, maxPageScore, ruleResults =>
    let result := findResult page.seoReport.results rule.name
    let failed : Bool := match result with
      | some r => !r.success
      | none => false
    let errors : List ErrorDetail :=
      if failed then
        [{ url := page.url
           message := (match result with
             | some r => r.message.getD "Rule failed"
             | none => "Rule failed") }]
      else []
    pageRuleLoop page rest
      (if failed then pageScore else pageScore + rule.level)
      (maxPageScore + rule.level)
      (ruleResults ++
        [{ rule := rule.name
           type := getRuleLevelName rule.level
           calc_weight := rule.level
           errors := errors }])

/-- One page's entry in the "by page" projection: the body of
`pageData.map((page) => ...)` in `formatByPage`.  Score is
`Math.round((pageScore / maxPageScore) * 100)` when `maxPageScore > 0`,
else `100`. -/
def pageResultFor (pageRules : List Rule) (page : ScrapedData) : PageResult :=
  let acc := pageRuleLoop page pageRules 0 0 []
  { url := page.url
    score :=
      if 0 < acc.2.1 then jsRound (((acc.1 : ℚ) / acc.2.1) * 100) else 100
    rules := acc.2.2 }

/-- The synthetic "site-wide" entry built from the site report in
`formatByPage`: each site outcome is rendered with type WARNING and
`calc_weight` 2, and the entry's score is `Math.round(siteReport.score)`. -/
def siteEntryFor (site : String) (sr : SEOReport) : PageResult :=
  { url := site ++ " (Site-wide)"
    score := jsRound sr.score
    rules := sr.results.map (fun result =>
      { rule := result.rule
        type := "WARNING"
        calc_weight := 2
        errors :=
          if result.success then []
          else [{ url := site, message := result.message.getD "Rule failed" }] }) }

/-- `formatByPage(site, meta, overallScore, pageData, pageRules, siteReport?)`:
maps every page to its entry and, when a non-empty site report exists,
`unshift`s the synthetic site-wide entry in front. -/
def formatByPage (site : String) (meta : AuditMeta) (overallScore : ℤ)
    (pageData : List ScrapedData) (pageRules : List Rule)
    (siteReport : Option SEOReport) : AuditResultByPage :=
  let pageResults := pageData.map (pageResultFor pageRules)
  let withSite :=
    match siteReport with
    | some sr =>
      if sr.results.length ≠ 0 then siteEntryFor site sr :: pageResults
      else pageResults
    | none => pageResults
  { site := site, meta := meta, score := overallScore, results := withSite }

/-! ## Indexability (src/lib/indexability.ts) -/

/-- `isPageIndexable(hasNoIndex, statusCode)`.  The JS guard `!statusCode`
is true both for `undefined` and for `0`, so a zero status code is treated
like a missing one. -/
def isPageIndexable (hasNoIndex : Bool) (statusCode : Option ℕ) : Bool :=
  if hasNoIndex then false
  else
    match statusCode with
    | none => false
    | some c => if c = 0 then false else if 400 ≤ c then false else true

/-- The spec's wording of indexability, for comparison: "false if
`hasNoIndexDirective`, false if no status code, false if `statusCode >= 400`,
else true". -/
def isIndexableSpec (hasNoIndex : Bool) (statusCode : Option ℕ) : Bool :=
  if hasNoIndex then false
  else
    match statusCode with
    | none => false
    | some c => if 400 ≤ c then false else true

/-! ## Job store (src/models/job.model.ts)

The MongoDB `jobs` collection is modelled as a list of `Job` records with
unique `jobId` values; `updateOne({ jobId }, { $set: ... })` updates the
first record with a matching id (and is a no-op when none matches).
Timestamps are abstract ticks (`ℕ`); `new Date()` is passed in as `now`. -/

/-- `JobStatus` enum. -/
inductive JobStatus where
  | PENDING
  | RUNNING
  | COMPLETED
  | FAILED
deriving Repr, DecidableEq

/-- A persisted `Job` record.  `results` is an opaque payload (the formatted
report), modelled as a string. -/
structure Job where
  jobId : String
  domain : String
  outputFormat : String
  doLighthouse : Bool
  status : JobStatus
  createdAt : ℕ
  startedAt : Option ℕ
  completedAt : Option ℕ
  progress : ℤ
  results : Option String
  error : Option String
  logFilePath : Option String
deriving Repr, DecidableEq

/-- The fields of `Partial<Job>` that `updateJobStatus` callers pass in
`updates`; `some` means the key is present in the `$set` document. -/
structure JobUpdates where
  startedAt : Option ℕ := none
  completedAt : Option ℕ := none
  progress : Option ℤ := none
  results : Option String := none
  error : Option String := none
  logFilePath : Option String := none
deriving Repr, DecidableEq

/-- `updateOne({ jobId }, ...)`: apply `f` to the first record with the
given id. -/
def updateFirstJob (store : List Job) (jobId : String) (f : Job → Job) :
    List Job :=
  match store with
  | [] => []
  | j :: rest =>
    if j.jobId == jobId then f j :: rest
    else j :: updateFirstJob rest jobId f

/-- `findOne({ jobId })`. -/
def getJob (store : List Job) (jobId : String) : Option Job :=
  store.find? (fun j => j.jobId == jobId)

/-- `createJob(domain, outputFormat, doLighthouse)`: inserts a fresh PENDING
job with `progress = 0` and no timestamps; `newId` stands for `uuidv4()` and
`now` for `new Date()`. -/
def createJob (store : List Job) (domain outputFormat : String)
    (doLighthouse : Bool) (newId : String) (now : ℕ) : Job × List Job :=
  let job : Job :=
    { jobId := newId, domain := domain, outputFormat := outputFormat
      doLighthouse := doLighthouse, status := JobStatus.PENDING
      createdAt := now, startedAt := none, completedAt := none
      progress := 0, results := none, error := none, logFilePath := none }
  (job, store ++ [job])

/-- The `$set` document applied by `updateJobStatus`: the requested `status`
and every present field of `updates`, with `startedAt = now` stamped when the
new status is RUNNING and `updates.startedAt` is absent, and
`completedAt = now` stamped when the new status is COMPLETED or FAILED and
`updates.completedAt` is absent.  Fields not in the document keep their old
values. -/
def applyStatusSet (status : JobStatus) (updates : JobUpdates) (now : ℕ)
    (j : Job) : Job :=
  { j with
    status := status
    startedAt :=
      match updates.startedAt with
      | some t => some t
      | none =>
        if status = JobStatus.RUNNING then some now else j.startedAt
    completedAt :=
      match updates.completedAt with
      | some t => some t
      | none =>
        if status = JobStatus.COMPLETED ∨ status = JobStatus.FAILED
        then some now else j.completedAt
    progress := updates.progress.getD j.progress
    results := match updates.results with
      | some r => some r
      | none => j.results
    error := match updates.error with
      | some e => some e
      | none => j.error
    logFilePath := match updates.logFilePath with
      | some p => some p
      | none => j.logFilePath }

/-- `updateJobStatus(jobId, status, updates)`: applies the `$set` document
to the record with the given id.  No check of the job's current status is
performed. -/
def updateJobStatus (store : List Job) (jobId : String) (status : JobStatus)
    (updates : JobUpdates) (now : ℕ) : List Job :=
  updateFirstJob store jobId (applyStatusSet status updates now)

/-- `updateJobProgress(jobId, progress)`: `$set`s the `progress` field,
unconditionally, on the record with the given id. -/
def updateJobProgress (store : List Job) (jobId : String) (progress : ℤ) :
    List Job :=
  updateFirstJob store jobId (fun j => { j with progress := progress })

/-! ## Job submission route (POST /api/audit, src/routes/api.ts) -/

/-- A JSON primitive as it arrives in the request body. -/
inductive JSValue where
  | bool (b : Bool)
  | str (s : String)
  | num (n : ℤ)
  | null
deriving Repr, DecidableEq

/-- Request body `{ domain, outputFormat, doLighthouse }`; `none` is an
absent key. -/
structure AuditRequestBody where
  domain : Option String
  outputFormat : Option String
  doLighthouse : Option JSValue
deriving Repr, DecidableEq

/-- JS truthiness-negation `!v` for an optional string: true when the key is
absent or the string is empty. -/
def jsStrFalsy : Option String → Bool
  | none => true
  | some s => s.isEmpty

/-- Truthiness of an optional string (used for `urlStatus.location`). -/
def jsStrTruthy : Option String → Bool
  | none => false
  | some s => !s.isEmpty

/-- Result of `getUrlStatus`. -/
structure UrlStatus where
  status : ℕ
  isRedirect : Bool
  location : Option String
  isClientError : Bool
  isServerError : Bool
deriving Repr, DecidableEq

/-- Responses the route can produce (HTTP status code plus payload). -/
inductive ApiResponse where
  | error (code : ℕ) (message : String)
  | redirect (redirectUrl : String) (message : String)
  | queued (jobId : String) (message : String)
deriving Repr, DecidableEq

/-- Domain normalization: strip a leading `http://` or `https://`. -/
def normalizeDomain (domain : String) : String :=
  if domain.startsWith "http://" then domain.drop 7
  else if domain.startsWith "https://" then domain.drop 8
  else domain

/-- The `POST /api/audit` handler.  Validation order follows the source:
missing required fields, then the `outputFormat` whitelist, then the
`doLighthouse` type check; only after these does the route probe the domain
(`getFullUrlWithProtocol`, modelled by the `resolveProtocol` oracle, and
`getUrlStatus`, modelled by `checkUrlStatus` — a failure of the latter is
swallowed and the route continues) and finally create the job.  Returns the
response together with the resulting job store. -/
def postAudit (body : AuditRequestBody)
    (resolveProtocol : String → Except String String)
    (checkUrlStatus : String → Except String UrlStatus)
    (newId : String) (now : ℕ) (store : List Job) :
    ApiResponse × List Job :=
  if jsStrFalsy body.domain || jsStrFalsy body.outputFormat
      || body.doLighthouse.isNone then
    (ApiResponse.error 400
      "Missing required fields: domain, outputFormat, doLighthouse", store)
  else
    match body.domain, body.outputFormat, body.doLighthouse with
    | some domain, some outputFormat, some doLighthouse =>
      if outputFormat ≠ "by-page" ∧ outputFormat ≠ "by-rule" then
        (ApiResponse.error 400
          "outputFormat must be either by-page or by-rule", store)
      else
        match doLighthouse with
        | JSValue.bool b =>
          let normalizedDomain := normalizeDomain domain
          match resolveProtocol normalizedDomain with
          | Except.error _ =>
            (ApiResponse.error 400
              ("Domain is unreachable: " ++ normalizedDomain), store)
          | Except.ok fullUrl =>
            let earlyResponse : Option ApiResponse :=
              match checkUrlStatus fullUrl with
              | Except.error _ => none
              | Except.ok urlStatus =>
                if urlStatus.isRedirect && jsStrTruthy urlStatus.location then
                  some (ApiResponse.redirect (urlStatus.location.getD "")
                    "Domain redirects to different URL. Please confirm and resubmit.")
                else if urlStatus.isClientError || urlStatus.isServerError then
                  some (ApiResponse.error 400
                    ("Domain returned error status: " ++ toString urlStatus.status))
                else none
            match earlyResponse with
            | some resp => (resp, store)
            | none =>
              let created := createJob store fullUrl outputFormat b newId now
              (ApiResponse.queued created.1.jobId
                "Audit job queued successfully", created.2)
        | _ =>
          (ApiResponse.error 400 "doLighthouse must be a boolean", store)
    | _, _, _ =>
      (ApiResponse.error 400
        "Missing required fields: domain, outputFormat, doLighthouse", store)

/-! ## WebSocket subscriber registry (src/lib/websocket.ts)

`clients : Map<string, Set<WebSocket>>` is modelled as an association list
from job id to the list of connected sockets (socket handles are `ℕ`);
JS `Map`/`Set` preserve insertion order, so `set`/`add` append. -/

/-- The subscriber registry. -/
abbrev WSRegistry := List (String × List ℕ)

/-- `clients.get(jobId)`. -/
def registryLookup (reg : WSRegistry) (jobId : String) : Option (List ℕ) :=
  (reg.find? (fun e => e.1 == jobId)).map (fun e => e.2)

/-- The connection handler's registration step: create the entry if absent,
then add the socket to the job's set. -/
def wsConnect (reg : WSRegistry) (jobId : String) (ws : ℕ) : WSRegistry :=
  match registryLookup reg jobId with
  | none => reg ++ [(jobId, [ws])]
  | some _ =>
    reg.map (fun e =>
      if e.1 == jobId then
        (e.1, if ws ∈ e.2 then e.2 else e.2 ++ [ws])
      else e)

/-- The `close` handler: remove the socket from the job's set and, when the
set becomes empty, delete the job's registry entry. -/
def wsDisconnect (reg : WSRegistry) (jobId : String) (ws : ℕ) : WSRegistry :=
  match registryLookup reg jobId with
  | none => reg
  | some s =>
    let s2 := s.erase ws
    if s2.isEmpty then reg.filter (fun e => !(e.1 == jobId))
    else reg.map (fun e => if e.1 == jobId then (e.1, s2) else e)

/-! ## Per-page score: summation form -/

/-- Whether `formatByPage` counts a rule as passed on a page: the recorded
outcome succeeded, or no outcome was recorded at all. -/
def rulePassedOnPage (page : ScrapedData) (r : Rule) : Bool :=
  match findResult page.seoReport.results r.name with
  | some res => res.success
  | none => true

/-- `Σ w_i` over a rule list. -/
def totalWeight (rules : List Rule) : ℕ :=
  (rules.map Rule.level).sum

/-- `Σ w_i * passed_i` as `formatByPage` counts it. -/
def pageWeightedPassed (rules : List Rule) (page : ScrapedData) : ℕ :=
  (rules.map (fun r => if rulePassedOnPage page r then r.level else 0)).sum

/-- The per-rule entry `formatByPage` emits for one page. -/
def ruleEntryFor (page : ScrapedData) (r : Rule) : RuleResultByPage :=
  { rule := r.name
    type := getRuleLevelName r.level
    calc_weight := r.level
    errors :=
      if rulePassedOnPage page r then []
      else
        [{ url := page.url
           message := (match findResult page.seoReport.results r.name with
             | some res => res.message.getD "Rule failed"
             | none => "Rule failed") }] }

theorem failedMatch_eq (page : ScrapedData) (r : Rule) :
    (match findResult page.seoReport.results r.name with
      | some res => !res.success
      | none => false) = !(rulePassedOnPage page r) := by
  unfold rulePassedOnPage
  cases findResult page.seoReport.results r.name <;> simp

theorem pageRuleLoop_spec (page : ScrapedData) :
    ∀ (rules : List Rule) (ps ms : ℕ) (rrs : List RuleResultByPage),
      pageRuleLoop page rules ps ms rrs =
        (ps + pageWeightedPassed rules page, ms + totalWeight rules,
          rrs ++ rules.map (ruleEntryFor page)) := by
  intro rules
  induction rules with
  | nil =>
    intro ps ms rrs
    simp [pageRuleLoop, pageWeightedPassed, totalWeight]
  | cons r rest ih =>
    intro ps ms rrs
    rw [pageRuleLoop]
    simp only [failedMatch_eq]
    rw [ih]
    simp only [pageWeightedPassed, totalWeight, List.map_cons, List.sum_cons,
      List.append_assoc, List.singleton_append, Prod.mk.injEq]
    cases hp : rulePassedOnPage page r with
    | true =>
      simp only [hp, Bool.not_true, Bool.false_eq_true, if_false, if_true]
      exact ⟨by omega, by omega, by simp [ruleEntryFor, hp]⟩
    | false =>
      simp only [hp, Bool.not_false, if_true, Bool.false_eq_true, if_false]
      exact ⟨by omega, by omega, by simp [ruleEntryFor, hp]⟩

/-- Score of one page entry in summation form. -/
theorem pageResultFor_score (rules : List Rule) (page : ScrapedData) :
    (pageResultFor rules page).score =
      if 0 < totalWeight rules
      then jsRound (((pageWeightedPassed rules page : ℕ) : ℚ)
        / ((totalWeight rules : ℕ) : ℚ) * 100)
      else 100 := by
  rw [pageResultFor, pageRuleLoop_spec]
  simp

/-- `Math.round((W / W) * 100) = 100` for `W > 0`. -/
theorem jsRound_self_div (W : ℕ) (hW : 0 < W) :
    jsRound ((W : ℚ) / (W : ℚ) * 100) = 100 := by
  rw [jsRound_frac W W hW]
  have h1 : 200 * W + W = W + (2 * W) * 100 := by ring
  have h2 : (200 * W + W) / (2 * W) = 100 := by
    rw [h1, Nat.add_mul_div_left _ _ (by omega),
      Nat.div_eq_of_lt (by omega)]
  rw [h2]
  rfl

/-! ## Job-store access lemmas -/

theorem getJob_updateFirstJob (store : List Job) (jobId : String)
    (f : Job → Job) (hf : ∀ j, (f j).jobId = j.jobId) :
    getJob (updateFirstJob store jobId f) jobId = (getJob store jobId).map f := by
  induction store with
  | nil => simp [getJob, updateFirstJob]
  | cons j rest ih =>
    by_cases h : j.jobId == jobId
    · simp only [updateFirstJob, if_pos h, getJob, List.find?]
      have : ((f j).jobId == jobId) = true := by
        rw [hf j]; exact h
      rw [this, h]
      rfl
    · simp only [updateFirstJob, if_neg h, getJob, List.find?]
      rw [Bool.of_not_eq_true h]
      exact ih

theorem updateFirstJob_not_found (store : List Job) (jobId : String)
    (f : Job → Job) (h : getJob store jobId = none) :
    updateFirstJob store jobId f = store := by
  induction store with
  | nil => rfl
  | cons j rest ih =>
    simp only [getJob, List.find?] at h
    cases hj : (j.jobId == jobId) with
    | true => rw [hj] at h; simp at h
    | false =>
      rw [hj] at h
      simp only [updateFirstJob, hj, Bool.false_eq_true, if_false,
        List.cons.injEq, true_and]
      exact ih h

/-! ## Error propagation through the evaluators -/

theorem evalSiteLoop_error (context : SiteRuleContext) (r : SiteRule)
    (e : String) (hr : r.check context = Except.error e) :
    ∀ (pre rest : List SiteRule),
      (∀ p ∈ pre, ∃ res, p.check context = Except.ok res) →
      ∀ (s m : ℕ) (acc : List SEOResult),
        evalSiteLoop context (pre ++ r :: rest) s m acc = Except.error e := by
  intro pre
  induction pre with
  | nil =>
    intro rest _ s m acc
    rw [List.nil_append, evalSiteLoop, hr]
  | cons p ps ih =>
    intro rest hpre s m acc
    obtain ⟨res, hres⟩ := hpre p (List.mem_cons_self p ps)
    rw [List.cons_append, evalSiteLoop, hres]
    exact ih rest (fun q hq => hpre q (List.mem_cons_of_mem p hq)) _ _ _

theorem evalSEOLoop_error (page : Page) (r : SEORule)
    (e : String) (hr : r.check page = Except.error e) :
    ∀ (pre rest : List SEORule),
      (∀ p ∈ pre, ∃ res, p.check page = Except.ok res) →
      ∀ (s m : ℕ) (acc : List SEOResult),
        evalSEOLoop page (pre ++ r :: rest) s m acc = Except.error e := by
  intro pre
  induction pre with
  | nil =>
    intro rest _ s m acc
    rw [List.nil_append, evalSEOLoop, hr]
  | cons p ps ih =>
    intro rest hpre s m acc
    obtain ⟨res, hres⟩ := hpre p (List.mem_cons_self p ps)
    rw [List.cons_append, evalSEOLoop, hres]
    exact ih rest (fun q hq => hpre q (List.mem_cons_of_mem p hq)) _ _ _

/-! ## Concrete fixtures for the spec's scenarios -/

/-- An HTML page record with the given url and rule outcomes (remaining
fields as the crawler produces them for a healthy page). -/
def mkPage (url : String) (results : List SEOResult) : ScrapedData :=
  { url := url
    linksFound := []
    seoReport := { results := results, score := 0 }
    statusCode := some 200
    redirectChain := none
    urlType := UrlType.HTML_PAGE
    isIndexable := true
    hasNoIndex := false }

/-- Scenario A/B: 10 HTML pages, a single rule passing on 9 and failing
on 1. -/
def scenarioAPages : List ScrapedData :=
  (List.range 9).map
    (fun i => mkPage ("https://example.com/p" ++ toString i)
      [⟨"has_title_tag", true, none⟩]) ++
  [mkPage "https://example.com/bad" [⟨"has_title_tag", false, some "Missing title tag"⟩]]

/-- Scenario C: 5 HTML pages all passing one ERROR-level rule. -/
def scenarioCPages : List ScrapedData :=
  (List.range 5).map
    (fun i => mkPage ("https://example.com/p" ++ toString i)
      [⟨"has_title_tag", true, none⟩])

/-- Site-rule context used by the concrete scenarios. -/
def demoCtx : SiteRuleContext :=
  { baseUrl := "https://example.com", sitemapUrl := none, crawledUrls := [] }

/-- Scenario C's failing WARNING-level (weight 2) site rule: `hasSitemapXml`
with no sitemap found. -/
def hasSitemapXmlFailing : SiteRule :=
  { name := "has_sitemap_xml", level := 2
    check := fun context =>
      match context.sitemapUrl with
      | some _ => Except.ok ⟨true, none⟩
      | none => Except.ok ⟨false, some "sitemap.xml not found"⟩ }

/-- A NOTICE-level (declared weight 1) failing site rule, as
`sitemapComplete` is declared in src/rules/rules.ts. -/
def sitemapCompleteFailing : SiteRule :=
  { name := "sitemap_complete", level := 1
    check := fun _ => Except.ok ⟨false, some "sitemap.xml is missing pages"⟩ }

/-- A site rule whose predicate throws. -/
def throwingSiteRule : SiteRule :=
  { name := "has_robots_txt", level := 2
    check := fun _ => Except.error "timeout of 5000ms exceeded" }

/-- A site rule whose predicate returns a passing result. -/
def okSiteRule : SiteRule :=
  { name := "has_robots_txt", level := 2
    check := fun _ => Except.ok ⟨true, none⟩ }

/-- A freshly created PENDING job used in concrete store scenarios. -/
def pendingJob : Job :=
  { jobId := "job-1", domain := "https://example.com", outputFormat := "by-page"
    doLighthouse := false, status := JobStatus.PENDING, createdAt := 0
    startedAt := none, completedAt := none, progress := 0, results := none
    error := none, logFilePath := none }

/-- The same job after completing successfully. -/
def completedJob : Job :=
  { pendingJob with
    status := JobStatus.COMPLETED, startedAt := some 1, completedAt := some 5
    progress := 100, results := some "report" }

/-! ## Claim theorems -/

/-- C3: for 10 HTML pages with a single page rule passing on exactly 9 of
them and no site rules, the overall score is 90, identically for an ERROR
(weight 3) and a WARNING (weight 2) rule: the weight cancels out of the
ratio when only one rule exists. -/
theorem overall_score_ten_pages_one_failing (pageData : List ScrapedData)
    (name : String) (w : ℕ)
    (hlen : pageData.length = 10)
    (hpass : passedCount pageData name = 9)
    (hw : w = 3 ∨ w = 2) :
    calculateProportionalScore pageData [⟨name, w⟩] none = 90 := by
  have hne : pageData ≠ [] := by
    intro h
    rw [h] at hlen
    simp at hlen
  rw [calculateProportionalScore_eq pageData [⟨name, w⟩] none hne]
  have e1 : pagePossible [⟨name, w⟩] pageData + 2 * siteResultCount none
      = w * 10 := by
    simp only [pagePossible, siteResultCount, List.map_cons, List.map_nil,
      List.sum_cons, List.sum_nil, hlen]
    omega
  have e2 : pageEarned [⟨name, w⟩] pageData + 2 * sitePassedCount none
      = w * 9 := by
    simp only [pageEarned, sitePassedCount, List.map_cons, List.map_nil,
      List.sum_cons, List.sum_nil, hpass]
    omega
  rw [e1, e2]
  rcases hw with rfl | rfl
  · rw [if_pos (by norm_num), jsRound_frac 27 30 (by norm_num)]
    decide
  · rw [if_pos (by norm_num), jsRound_frac 18 20 (by norm_num)]
    decide

/-- Witness for C3 at the concrete Scenario A/B inputs. -/
theorem overall_score_ten_pages_one_failing_witness :
    scenarioAPages.length = 10 ∧
    passedCount scenarioAPages "has_title_tag" = 9 ∧
    calculateProportionalScore scenarioAPages [⟨"has_title_tag", 3⟩] none = 90 ∧
    calculateProportionalScore scenarioAPages [⟨"has_title_tag", 2⟩] none = 90 :=
  ⟨by decide, by decide,
   overall_score_ten_pages_one_failing scenarioAPages "has_title_tag" 3
     (by decide) (by decide) (Or.inl rfl),
   overall_score_ten_pages_one_failing scenarioAPages "has_title_tag" 2
     (by decide) (by decide) (Or.inr rfl)⟩

/-- C8 counterexample: at `statusCode = 0` (and no noindex directive) the
code returns `false` because the JS guard `!statusCode` treats `0` like a
missing status, while the claim's reading ("false if it has no status code,
false if `statusCode >= 400`, and true otherwise") yields `true`. -/
theorem isPageIndexable_zero_status_cex :
    isPageIndexable false (some 0) = false ∧
    isIndexableSpec false (some 0) = true := by
  decide

/-- C8 amended: `isIndexable` is true exactly when there is no noindex
directive and the status code is present, nonzero (a zero status is treated
like a missing one by the `!statusCode` guard), and below 400; the three
Scenario D instances hold as stated. -/
theorem isPageIndexable_characterization (hasNoIndex : Bool)
    (statusCode : Option ℕ) :
    (isPageIndexable hasNoIndex statusCode = true ↔
      hasNoIndex = false ∧ ∃ c, statusCode = some c ∧ 0 < c ∧ c < 400) ∧
    isPageIndexable false (some 404) = false ∧
    isPageIndexable true (some 200) = false ∧
    isPageIndexable false (some 200) = true := by
  refine ⟨?_, by decide, by decide, by decide⟩
  cases hasNoIndex with
  | true => simp [isPageIndexable]
  | false =>
    cases statusCode with
    | none => simp [isPageIndexable]
    | some c =>
      simp only [isPageIndexable, Bool.false_eq_true, if_false,
        Option.some.injEq, true_and]
      by_cases h0 : c = 0
      · subst h0
        simp
      · by_cases h4 : 400 ≤ c
        · rw [if_neg h0, if_pos h4]
          simp only [Bool.false_eq_true, false_iff]
          rintro ⟨c', rfl, _, hlt⟩
          omega
        · rw [if_neg h0, if_neg h4]
          simp only [true_iff]
          exact ⟨c, rfl, by omega, by omega⟩

/-- C2 counterexample: the store's status-update operation accepts a
transition out of the terminal state COMPLETED; after requesting FAILED on a
completed job, the job is observed in FAILED. -/
theorem updateJobStatus_completed_then_failed_cex :
    (getJob (updateJobStatus [pendingJob] "job-1" JobStatus.COMPLETED {} 5)
        "job-1").map Job.status = some JobStatus.COMPLETED ∧
    (getJob (updateJobStatus
        (updateJobStatus [pendingJob] "job-1" JobStatus.COMPLETED {} 5)
        "job-1" JobStatus.FAILED { error := some "late failure" } 6)
        "job-1").map Job.status = some JobStatus.FAILED := by
  decide

/-- C2 amended: the store's `updateJobStatus` applies whatever status is
requested, regardless of the job's current state — forward-only transitions
(PENDING → RUNNING → terminal, terminal absorbing) are a discipline of the
processor, not enforced by the store, so a job observed COMPLETED is later
observed FAILED if such an update is requested. -/
theorem updateJobStatus_applies_any_status (store : List Job) (jobId : String)
    (status : JobStatus) (updates : JobUpdates) (now : ℕ) (j : Job)
    (h : getJob store jobId = some j) :
    getJob (updateJobStatus store jobId status updates now) jobId
      = some (applyStatusSet status updates now j)
    ∧ (applyStatusSet status updates now j).status = status := by
  constructor
  · rw [updateJobStatus,
      getJob_updateFirstJob store jobId (applyStatusSet status updates now)
        (fun _ => rfl), h]
    rfl
  · rfl

/-- Witness for C2's amended theorem: a COMPLETED job accepts a FAILED
update. -/
theorem updateJobStatus_applies_any_status_witness :
    getJob (updateJobStatus [completedJob] "job-1" JobStatus.FAILED {} 7)
        "job-1"
      = some (applyStatusSet JobStatus.FAILED {} 7 completedJob)
    ∧ (applyStatusSet JobStatus.FAILED {} 7 completedJob).status
      = JobStatus.FAILED :=
  updateJobStatus_applies_any_status [completedJob] "job-1" JobStatus.FAILED
    {} 7 completedJob (by decide)

/-- C6 counterexample: `updateJobProgress` is not a no-op on a job that is
not RUNNING — it updates the PENDING job's progress to 50. -/
theorem updateJobProgress_not_noop_cex :
    pendingJob.status ≠ JobStatus.RUNNING ∧
    (getJob (updateJobProgress [pendingJob] "job-1" 50) "job-1").map
        Job.progress = some 50 ∧
    updateJobProgress [pendingJob] "job-1" 50 ≠ [pendingJob] := by
  decide

/-- C6 amended: `updateJobProgress` sets the `progress` field of the record
with the given id unconditionally, whatever the job's state, leaving every
other field unchanged; it is a no-op only when no job with that id exists.
The store performs no RUNNING check. -/
theorem updateJobProgress_spec (store : List Job) (jobId : String)
    (progress : ℤ) :
    getJob (updateJobProgress store jobId progress) jobId
      = (getJob store jobId).map (fun j => { j with progress := progress })
    ∧ (getJob store jobId = none →
        updateJobProgress store jobId progress = store) := by
  constructor
  · rw [updateJobProgress,
      getJob_updateFirstJob store jobId
        (fun j => { j with progress := progress }) (fun _ => rfl)]
  · intro h
    exact updateFirstJob_not_found store jobId _ h

/-- Witness for C6's amended theorem at the concrete PENDING job. -/
theorem updateJobProgress_spec_witness :
    getJob (updateJobProgress [pendingJob] "job-1" 50) "job-1"
      = (getJob [pendingJob] "job-1").map (fun j => { j with progress := 50 }) :=
  (updateJobProgress_spec [pendingJob] "job-1" 50).1

/-- C5 counterexample: a site rule whose predicate throws is not caught at
the rule-invocation boundary — `evaluateSiteRules` returns the error itself
instead of a report with a `passed=false` outcome for that rule. -/
theorem evaluateSiteRules_throw_cex :
    evaluateSiteRules demoCtx [throwingSiteRule]
      = Except.error "timeout of 5000ms exceeded" := rfl

/-- C5 amended: a rule predicate that throws propagates out of the
evaluator (`evaluateSiteRules` / `evaluateSEORules`): if every earlier rule
returned normally and some rule throws `e`, the whole evaluation aborts with
`e` rather than recording a failed outcome for that rule. -/
theorem evaluators_propagate_rule_error :
    (∀ (context : SiteRuleContext) (pre rest : List SiteRule) (r : SiteRule)
      (e : String),
      r.check context = Except.error e →
      (∀ p ∈ pre, ∃ res, p.check context = Except.ok res) →
      evaluateSiteRules context (pre ++ r :: rest) = Except.error e)
    ∧ (∀ (page : Page) (pre rest : List SEORule) (r : SEORule) (e : String),
      r.check page = Except.error e →
      (∀ p ∈ pre, ∃ res, p.check page = Except.ok res) →
      evaluateSEORules page (pre ++ r :: rest) = Except.error e) := by
  constructor
  · intro context pre rest r e hr hpre
    unfold evaluateSiteRules
    rw [evalSiteLoop_error context r e hr pre rest hpre]
  · intro page pre rest r e hr hpre
    unfold evaluateSEORules
    rw [evalSEOLoop_error page r e hr pre rest hpre]

/-- Witness for C5's amended theorem: a passing rule followed by a throwing
one aborts the site evaluation with the thrown error. -/
theorem evaluators_propagate_rule_error_witness :
    evaluateSiteRules demoCtx [okSiteRule, throwingSiteRule]
      = Except.error "timeout of 5000ms exceeded" :=
  evaluators_propagate_rule_error.1 demoCtx [okSiteRule] [] throwingSiteRule
    "timeout of 5000ms exceeded" rfl
    (fun p hp => by
      rcases List.mem_singleton.mp hp with rfl
      exact ⟨⟨true, none⟩, rfl⟩)

/-- Request body with an unrecognized output projection. -/
def invalidBody : AuditRequestBody :=
  { domain := some "example.com", outputFormat := some "invalid"
    doLighthouse := some (JSValue.bool true) }

/-- Oracle standing for `getFullUrlWithProtocol` resolving successfully. -/
def okResolve : String → Except String String :=
  fun d => Except.ok ("https://" ++ d)

/-- Oracle standing for `getUrlStatus` reporting a plain 200. -/
def okStatus : String → Except String UrlStatus :=
  fun _ => Except.ok { status := 200, isRedirect := false, location := none
                       isClientError := false, isServerError := false }

/-- C7: a submission whose `outputFormat` is not `by-page`/`by-rule` is
rejected with a 400 validation error and the job store is left unchanged —
no Job record is created. -/
theorem postAudit_invalid_format_rejected (body : AuditRequestBody)
    (resolveProtocol : String → Except String String)
    (checkUrlStatus : String → Except String UrlStatus)
    (newId : String) (now : ℕ) (store : List Job) (f : String)
    (hf : body.outputFormat = some f)
    (h1 : f ≠ "by-page") (h2 : f ≠ "by-rule") :
    (postAudit body resolveProtocol checkUrlStatus newId now store).2 = store
    ∧ ∃ msg, (postAudit body resolveProtocol checkUrlStatus newId now store).1
        = ApiResponse.error 400 msg := by
  rcases body with ⟨bd, bf, bl⟩
  simp only at hf
  subst hf
  unfold postAudit
  by_cases hg : (jsStrFalsy bd || jsStrFalsy (some f) || bl.isNone) = true
  · rw [if_pos hg]
    exact ⟨rfl, _, rfl⟩
  · rw [if_neg hg]
    rcases bd with _ | d
    · exact absurd (by simp [jsStrFalsy]) hg
    rcases bl with _ | v
    · exact absurd (by simp [jsStrFalsy, Option.isNone]) hg
    dsimp only
    rw [if_pos ⟨h1, h2⟩]
    exact ⟨rfl, _, rfl⟩

/-- Witness for C7 at the concrete invalid submission. -/
theorem postAudit_invalid_format_rejected_witness :
    (postAudit invalidBody okResolve okStatus "id-1" 0 []).2 = ([] : List Job)
    ∧ ∃ msg, (postAudit invalidBody okResolve okStatus "id-1" 0 []).1
        = ApiResponse.error 400 msg :=
  postAudit_invalid_format_rejected invalidBody okResolve okStatus "id-1" 0 []
    "invalid" rfl (by decide) (by decide)

/-- C9: connect and disconnect preserve the invariant that no job id maps to
an empty subscriber set, and disconnecting the last subscriber of a job id
removes that id's registry entry altogether. -/
theorem registry_no_empty_entry (reg : WSRegistry) (jobId : String) (ws : ℕ)
    (hne : ∀ e ∈ reg, e.2 ≠ []) :
    (∀ e ∈ wsConnect reg jobId ws, e.2 ≠ [])
    ∧ (∀ e ∈ wsDisconnect reg jobId ws, e.2 ≠ [])
    ∧ (registryLookup reg jobId = some [ws] →
        registryLookup (wsDisconnect reg jobId ws) jobId = none) := by
  refine ⟨?_, ?_, ?_⟩
  · unfold wsConnect
    cases hl : registryLookup reg jobId with
    | none =>
      intro e he
      rcases List.mem_append.mp he with h | h
      · exact hne e h
      · rcases List.mem_singleton.mp h with rfl
        simp
    | some s =>
      intro e he
      rcases List.mem_map.mp he with ⟨e0, he0, rfl⟩
      by_cases hid : (e0.1 == jobId) = true
      · rw [if_pos hid]
        by_cases hmem : ws ∈ e0.2
        · simpa [hmem] using hne e0 he0
        · simp [hmem]
      · rw [if_neg hid]
        exact hne e0 he0
  · unfold wsDisconnect
    cases hl : registryLookup reg jobId with
    | none => exact hne
    | some s =>
      dsimp only
      by_cases hempty : (s.erase ws).isEmpty = true
      · rw [if_pos hempty]
        intro e he
        exact hne e (List.mem_of_mem_filter he)
      · rw [if_neg hempty]
        intro e he
        rcases List.mem_map.mp he with ⟨e0, he0, rfl⟩
        by_cases hid : (e0.1 == jobId) = true
        · rw [if_pos hid]
          intro hnil
          simp only at hnil
          exact hempty (by simp [hnil])
        · rw [if_neg hid]
          exact hne e0 he0
  · intro hl
    unfold wsDisconnect
    rw [hl]
    dsimp only
    rw [List.erase_cons_head]
    simp only [List.isEmpty_nil, if_true]
    have hfind : (List.filter (fun e => !(e.1 == jobId)) reg).find?
        (fun e => e.1 == jobId) = none := by
      rw [List.find?_eq_none]
      intro x hx
      have hx2 := (List.mem_filter.mp hx).2
      simp only [Bool.not_eq_true'] at hx2
      simp [hx2]
    unfold registryLookup
    rw [hfind]
    rfl

/-- Witness for C9 at a concrete one-subscriber registry. -/
theorem registry_no_empty_entry_witness :
    registryLookup (wsDisconnect [("job-1", [7])] "job-1" 7) "job-1" = none
    ∧ (∀ e ∈ wsConnect [("job-1", [7])] "job-1" 8, e.2 ≠ []) :=
  ⟨(registry_no_empty_entry [("job-1", [7])] "job-1" 7 (by decide)).2.2
      (by decide),
   (registry_no_empty_entry [("job-1", [7])] "job-1" 8 (by decide)).1⟩

/-- The report a failing weight-1 (NOTICE) site rule produces. -/
def noticeSiteReport : SEOReport :=
  { results := [⟨"sitemap_complete", false, some "sitemap.xml is missing pages"⟩]
    score := 0 }

/-- The report a failing weight-2 (WARNING) site rule produces. -/
def warningSiteReport : SEOReport :=
  { results := [⟨"has_sitemap_xml", false, some "sitemap.xml not found"⟩]
    score := 0 }

/-- C1 counterexample: running the Scenario C pages (5 HTML pages all
passing one weight-3 rule) against a *failing NOTICE site rule of declared
weight 1* (`sitemap_complete`), the code scores 88 — it adds the hardcoded
weight 2 for the site rule (possible 17) — whereas the claim's formula with
the rule's declared weight 1 gives round(100 * 15 / 16) = 94. -/
theorem calculateProportionalScore_declared_weight_cex :
    (evaluateSiteRules demoCtx [sitemapCompleteFailing]).map
        (fun sr => calculateProportionalScore scenarioCPages
          [⟨"has_title_tag", 3⟩] (some sr))
      = Except.ok 88
    ∧ jsRound (((15 : ℕ) : ℚ) / ((16 : ℕ) : ℚ) * 100) = 94 := by
  constructor
  · have hloop : evaluateSiteRules demoCtx [sitemapCompleteFailing]
        = Except.ok noticeSiteReport := by
      simp only [evaluateSiteRules, evalSiteLoop, sitemapCompleteFailing,
        noticeSiteReport]
      norm_num
    rw [hloop]
    have hscore : calculateProportionalScore scenarioCPages
        [⟨"has_title_tag", 3⟩] (some noticeSiteReport) = 88 :=
      calculateProportionalScore_eval scenarioCPages [⟨"has_title_tag", 3⟩]
        (some noticeSiteReport) 17 15 88 (by decide) (by decide) (by decide)
        (by decide) (by decide)
    simp only [Except.map, hscore]
  · rw [jsRound_frac 15 16 (by norm_num)]
    decide

/-- C1 amended: the overall score is round(100 * earned / possible) where
each page rule contributes `weight * passedCount` earned and
`weight * totalPages` possible points, but every site-rule outcome
contributes a *fixed* weight of 2 (the hardcoded `const weight = 2`) to
possible points and, when passing, to earned points — not its declared
weight; Scenario C (whose failing site rule happens to have declared
weight 2) still yields 88. -/
theorem calculateProportionalScore_site_fixed_weight :
    (∀ (pageData : List ScrapedData) (pageRules : List Rule) (sr : SEOReport),
      pageData ≠ [] →
      calculateProportionalScore pageData pageRules (some sr) =
        if 0 < pagePossible pageRules pageData + 2 * sr.results.length
        then jsRound
          (((pageEarned pageRules pageData
              + 2 * (sr.results.filter SEOResult.success).length : ℕ) : ℚ)
            / ((pagePossible pageRules pageData
                + 2 * sr.results.length : ℕ) : ℚ) * 100)
        else 0)
    ∧ (evaluateSiteRules demoCtx [hasSitemapXmlFailing]).map
        (fun sr => calculateProportionalScore scenarioCPages
          [⟨"has_title_tag", 3⟩] (some sr))
      = Except.ok 88 := by
  constructor
  · intro pageData pageRules sr h
    simpa [siteResultCount, sitePassedCount]
      using calculateProportionalScore_eq pageData pageRules (some sr) h
  · have hloop : evaluateSiteRules demoCtx [hasSitemapXmlFailing]
        = Except.ok warningSiteReport := by
      simp only [evaluateSiteRules, evalSiteLoop, hasSitemapXmlFailing,
        demoCtx, warningSiteReport]
      norm_num
    rw [hloop]
    have hscore : calculateProportionalScore scenarioCPages
        [⟨"has_title_tag", 3⟩] (some warningSiteReport) = 88 :=
      calculateProportionalScore_eval scenarioCPages [⟨"has_title_tag", 3⟩]
        (some warningSiteReport) 17 15 88 (by decide) (by decide) (by decide)
        (by decide) (by decide)
    simp only [Except.map, hscore]

/-- Witness for C1's amended theorem: its formula, instantiated at the
Scenario C inputs, evaluates to the code's score of 88. -/
theorem calculateProportionalScore_site_fixed_weight_witness :
    scenarioCPages ≠ [] ∧
    calculateProportionalScore scenarioCPages [⟨"has_title_tag", 3⟩]
      (some warningSiteReport) = 88 := by
  refine ⟨by decide, ?_⟩
  rw [calculateProportionalScore_site_fixed_weight.1 scenarioCPages
    [⟨"has_title_tag", 3⟩] warningSiteReport (by decide)]
  rw [show pagePossible [⟨"has_title_tag", 3⟩] scenarioCPages
      + 2 * warningSiteReport.results.length = 17 from by decide,
    show pageEarned [⟨"has_title_tag", 3⟩] scenarioCPages
      + 2 * (warningSiteReport.results.filter SEOResult.success).length = 15
      from by decide,
    if_pos (by norm_num), jsRound_frac 15 17 (by norm_num)]
  decide

/-- Rules and a page used in the C4 witness. -/
def demoRules : List Rule :=
  [⟨"has_title_tag", 3⟩, ⟨"has_description_tag", 2⟩]

/-- A page passing the first demo rule and failing the second. -/
def demoPage : ScrapedData :=
  mkPage "https://example.com/d"
    [⟨"has_title_tag", true, none⟩,
     ⟨"has_description_tag", false, some "Missing description"⟩]

/-- C4: for page rules with positive weights each having a recorded outcome
on a page, the page's reported score in the "by page" projection is
round(100 * Σ wᵢ·passedᵢ / Σ wᵢ); when no page rules exist the score is 100;
and the per-page entry so scored is what `formatByPage` reports for that
page. -/
theorem formatByPage_per_page_score (pageRules : List Rule)
    (page : ScrapedData)
    (hw : ∀ r ∈ pageRules, 0 < r.level)
    (ho : ∀ r ∈ pageRules, (findResult page.seoReport.results r.name).isSome) :
    (pageRules ≠ [] →
      (pageResultFor pageRules page).score =
        jsRound (((pageWeightedPassed pageRules page : ℕ) : ℚ)
          / ((totalWeight pageRules : ℕ) : ℚ) * 100))
    ∧ (pageRules = [] → (pageResultFor pageRules page).score = 100)
    ∧ (∀ (site : String) (meta : AuditMeta) (overall : ℤ)
        (pageData : List ScrapedData) (siteReport : Option SEOReport),
        page ∈ pageData →
        pageResultFor pageRules page
          ∈ (formatByPage site meta overall pageData pageRules siteReport).results) := by
  refine ⟨?_, ?_, ?_⟩
  · intro hne
    have hpos : 0 < totalWeight pageRules := by
      rcases pageRules with _ | ⟨r, rest⟩
      · exact absurd rfl hne
      · have h0 : 0 < (r.level : ℕ) := hw r (List.mem_cons_self r rest)
        simp only [totalWeight, List.map_cons, List.sum_cons]
        exact Nat.lt_of_lt_of_le h0 (Nat.le_add_right _ _)
    rw [pageResultFor_score, if_pos hpos]
  · intro h
    subst h
    simp [pageResultFor_score, totalWeight]
  · intro site meta overall pageData siteReport hmem
    unfold formatByPage
    cases siteReport with
    | none => simpa using List.mem_map_of_mem (pageResultFor pageRules) hmem
    | some s =>
      dsimp only
      by_cases hs : s.results.length ≠ 0
      · rw [if_pos hs]
        exact List.mem_cons_of_mem _
          (List.mem_map_of_mem (pageResultFor pageRules) hmem)
      · rw [if_neg hs]
        exact List.mem_map_of_mem (pageResultFor pageRules) hmem

/-- Witness for C4: the demo page passes weight 3 of total weight 5, and its
reported score is round(100 * 3/5) = 60. -/
theorem formatByPage_per_page_score_witness :
    (∀ r ∈ demoRules, 0 < r.level) ∧
    (pageResultFor demoRules demoPage).score = 60 := by
  refine ⟨by decide, ?_⟩
  rw [(formatByPage_per_page_score demoRules demoPage (by decide)
      (by decide)).1 (by decide),
    show pageWeightedPassed demoRules demoPage = 3 from by decide,
    show totalWeight demoRules = 5 from by decide,
    jsRound_frac 3 5 (by norm_num)]
  decide

/-- A visited page with no recorded rule outcomes at all. -/
def pageNoResults : ScrapedData := mkPage "https://example.com/fresh" []

/-- C10: in the by-page projection a rule with no recorded outcome for a
page counts as passed — it contributes its full weight to both the page's
earned points and the denominator — so a page with no recorded outcomes for
any rule scores 100 even though every rule is in the denominator. -/
theorem formatByPage_missing_outcome_counts_passed (pageRules : List Rule)
    (page : ScrapedData)
    (h : ∀ r ∈ pageRules, findResult page.seoReport.results r.name = none) :
    (∀ r ∈ pageRules, rulePassedOnPage page r = true)
    ∧ (pageRuleLoop page pageRules 0 0 []).1 = totalWeight pageRules
    ∧ (pageRuleLoop page pageRules 0 0 []).2.1 = totalWeight pageRules
    ∧ (pageResultFor pageRules page).score = 100 := by
  have hall : ∀ r ∈ pageRules, rulePassedOnPage page r = true := by
    intro r hr
    unfold rulePassedOnPage
    rw [h r hr]
  have hsum : pageWeightedPassed pageRules page = totalWeight pageRules := by
    unfold pageWeightedPassed totalWeight
    congr 1
    apply List.map_congr_left
    intro r hr
    rw [hall r hr, if_pos rfl]
  refine ⟨hall, ?_, ?_, ?_⟩
  · rw [pageRuleLoop_spec, hsum]
    simp
  · rw [pageRuleLoop_spec]
    simp
  · rw [pageResultFor_score]
    by_cases hpos : 0 < totalWeight pageRules
    · rw [if_pos hpos, hsum, jsRound_self_div _ hpos]
    · rw [if_neg hpos]

/-- Witness for C10: a page with an empty outcome list scores 100 against a
weight-3 rule, whose weight fully enters the denominator. -/
theorem formatByPage_missing_outcome_counts_passed_witness :
    (pageResultFor [⟨"has_title_tag", 3⟩] pageNoResults).score = 100
    ∧ (pageRuleLoop pageNoResults [⟨"has_title_tag", 3⟩] 0 0 []).2.1 = 3 := by
  have h := formatByPage_missing_outcome_counts_passed
    [⟨"has_title_tag", 3⟩] pageNoResults (by decide)
  refine ⟨h.2.2.2, ?_⟩
  rw [h.2.2.1]
  decide

end SEOAudit
